import Mathlib

set_option autoImplicit false

/-!
Shallow embedding of the poke OIDC server (github.com/ericchiang/poke).

Conventions of the embedding:
* Go `time.Time` is modelled as `Int`, interpreted as nanoseconds; the Go zero
  `time.Time{}` is `0`, and `t1.After(t2)` is `t1 > t2`.  Go `time.Duration` is
  likewise an `Int` number of nanoseconds, so `int(expiry.Sub(now))` is
  `expiry - now`.
* Strings, scope lists and identifiers are embedded as Lean `String`s and
  `List String`s.
* Storage (`storage.Storage`) is embedded as association lists per record kind.
  The in-memory implementation itself is not among the provided sources (only
  its conformance test suite in storagetest is); the list model satisfies that
  suite: Create-then-Get returns the record, Delete-then-Get returns NotFound.
  `Option` return values model Go's `storage.ErrNotFound` (`none` = NotFound).
* Randomness (`storage.NewNonce`) is modelled by passing the freshly drawn
  value as an explicit argument to the handler being modelled.
* JWS signing is abstracted away: the token response carries the ID Token's
  claims structure rather than a compact JWS string.
-/

namespace Poke

/-- Model of `storage.Identity` (part_002). `connectorData` is carried as bytes. -/
structure Identity where
  userID : String := ""
  username : String := ""
  email : String := ""
  emailVerified : Bool := false
  groups : List String := []
  connectorData : List Nat := []
  deriving Repr, DecidableEq, Inhabited

/-- Model of `storage.Client` (part_002). -/
structure Client where
  id : String := ""
  secret : String := ""
  redirectURIs : List String := []
  trustedPeers : List String := []
  public : Bool := false
  name : String := ""
  logoURL : String := ""
  deriving Repr, DecidableEq, Inhabited

/-- Model of `storage.AuthRequest` (part_002). -/
structure AuthRequest where
  id : String := ""
  clientID : String := ""
  responseTypes : List String := []
  scopes : List String := []
  redirectURI : String := ""
  nonce : String := ""
  state : String := ""
  forceApprovalPrompt : Bool := false
  identity : Option Identity := none
  connectorID : String := ""
  expiry : Int := 0
  deriving Repr, DecidableEq, Inhabited

/-- Model of `storage.AuthCode` (part_002). -/
structure AuthCode where
  id : String := ""
  clientID : String := ""
  redirectURI : String := ""
  connectorID : String := ""
  nonce : String := ""
  scopes : List String := []
  identity : Identity := {}
  expiry : Int := 0
  deriving Repr, DecidableEq, Inhabited

/-- Model of `storage.Refresh` (part_002). -/
structure Refresh where
  refreshToken : String := ""
  clientID : String := ""
  connectorID : String := ""
  scopes : List String := []
  nonce : String := ""
  identity : Identity := {}
  expiry : Int := 0
  deriving Repr, DecidableEq, Inhabited

/-- The record kinds of `storage.Storage` the token/approval handlers touch.
Keys are held separately (see `Keys` below). -/
structure Storage where
  clients : List Client := []
  authRequests : List AuthRequest := []
  authCodes : List AuthCode := []
  refreshes : List Refresh := []
  deriving Repr, DecidableEq, Inhabited

/-- Model of `GetClient`: `none` models `storage.ErrNotFound`. -/
def getClient (st : Storage) (id : String) : Option Client :=
  st.clients.find? (fun c => c.id == id)

/-- Model of `GetAuthRequest`. -/
def getAuthRequest (st : Storage) (id : String) : Option AuthRequest :=
  st.authRequests.find? (fun a => a.id == id)

/-- Model of `GetAuthCode`. -/
def getAuthCode (st : Storage) (id : String) : Option AuthCode :=
  st.authCodes.find? (fun c => c.id == id)

/-- Model of `GetRefresh`. -/
def getRefresh (st : Storage) (tok : String) : Option Refresh :=
  st.refreshes.find? (fun r => r.refreshToken == tok)

/-- Model of `DeleteAuthRequest`: atomic; `none` models `storage.ErrNotFound`. -/
def deleteAuthRequest (st : Storage) (id : String) : Option Storage :=
  if (getAuthRequest st id).isSome then
    some { st with authRequests := st.authRequests.filter (fun a => a.id != id) }
  else none

/-- Model of `DeleteAuthCode`. -/
def deleteAuthCode (st : Storage) (id : String) : Option Storage :=
  if (getAuthCode st id).isSome then
    some { st with authCodes := st.authCodes.filter (fun c => c.id != id) }
  else none

/-- Model of `DeleteRefresh`. -/
def deleteRefresh (st : Storage) (tok : String) : Option Storage :=
  if (getRefresh st tok).isSome then
    some { st with refreshes := st.refreshes.filter (fun r => r.refreshToken != tok) }
  else none

/-- Model of `CreateAuthCode`. -/
def createAuthCode (st : Storage) (c : AuthCode) : Storage :=
  { st with authCodes := c :: st.authCodes }

/-- Model of `CreateRefresh`. -/
def createRefresh (st : Storage) (r : Refresh) : Storage :=
  { st with refreshes := r :: st.refreshes }

/-! Character-level Go string helpers.  Go's byte-oriented `strings` functions
are modelled on the character list of a `String` (the protocol strings in play
are ASCII, where bytes and characters coincide); these stay computable by the
kernel. -/

/-- Go `strings.HasPrefix`. -/
def strHasPre (pre s : String) : Bool := pre.data.isPrefixOf s.data

/-- Drop the first `n` characters. -/
def strDrop (s : String) (n : Nat) : String := String.mk (s.data.drop n)

/-- Character length. -/
def strLen (s : String) : Nat := s.data.length

/-- Split a character list on a separator character; `[[]]` for the empty
list, mirroring Go `strings.Split` with a one-byte separator. -/
def splitChars (sep : Char) : List Char → List (List Char)
  | [] => [[]]
  | c :: rest =>
    if c = sep then [] :: splitChars sep rest
    else
      match splitChars sep rest with
      | [] => [[c]]
      | g :: gs => (c :: g) :: gs

/-- Go `strings.Split(s, " ")`. -/
def goSplitSpace (s : String) : List String :=
  (splitChars ' ' s.data).map String.mk

instance decEqExcept {ε α : Type} [DecidableEq ε] [DecidableEq α] :
    DecidableEq (Except ε α) := fun x y =>
  match x, y with
  | .error a, .error b =>
    if h : a = b then isTrue (h ▸ rfl)
    else isFalse (by intro hc; injection hc; contradiction)
  | .error _, .ok _ => isFalse (by intro hc; injection hc)
  | .ok _, .error _ => isFalse (by intro hc; injection hc)
  | .ok a, .ok b =>
    if h : a = b then isTrue (h ▸ rfl)
    else isFalse (by intro hc; injection hc; contradiction)

/-! OAuth2 constants and helpers (src/server/oauth2.go). -/

def errInvalidRequest : String := "invalid_request"
def errServerError : String := "server_error"
def errInvalidClient : String := "invalid_client"
def errInvalidGrant : String := "invalid_grant"

def scopeOfflineAccess : String := "offline_access"
def scopeOpenID : String := "openid"
def scopeGroups : String := "groups"
def scopeEmail : String := "email"
def scopeProfile : String := "profile"

/-- Model of `scopeCrossClientPrefix` in oauth2.go (renamed to fit Lean naming). -/
def scopeCrossClientPre : String := "oauth2:server:client_id:"

/-- An OAuth2 protocol error together with the HTTP status it is written with
(`tokenErr` / `renderError` call sites). -/
structure OAuth2Err where
  typ : String
  description : String
  status : Nat
  deriving Repr, DecidableEq, Inhabited

/-- The JSON shapes the `aud` claim can serialize to. -/
inductive AudJSON where
  | str (s : String)
  | arr (a : List String)
  deriving Repr, DecidableEq

/-- Model of `audience.MarshalJSON` (oauth2.go:62): one element marshals as the bare
JSON string, anything else as a JSON array. -/
def audienceMarshalJSON : List String → AudJSON
  | [a] => .str a
  | a => .arr a

/-- Model of `idTokenClaims` (oauth2.go:69). `azp = ""` and `emailVerified = none`
model the `omitempty` / pointer-absent JSON states. -/
structure IDTokenClaims where
  iss : String := ""
  sub : String := ""
  aud : List String := []
  exp : Int := 0
  iat : Int := 0
  azp : String := ""
  nonce : String := ""
  email : String := ""
  emailVerified : Option Bool := none
  groups : List String := []
  name : String := ""
  deriving Repr, DecidableEq, Inhabited

/-- Model of `parseCrossClientScope` (oauth2.go:227). -/
def parseCrossClientScope (scope : String) : Option String :=
  if strHasPre scopeCrossClientPre scope then
    some (strDrop scope (strLen scopeCrossClientPre))
  else none

/-- Model of `validateCrossClientTrust` (oauth2.go:234); the storage-fault error return
does not arise in the faultless storage model. -/
def validateCrossClientTrust (st : Storage) (clientID peerID : String) : Bool :=
  if peerID == clientID then true
  else
    match getClient st peerID with
    | none => false
    | some peer => peer.trustedPeers.contains clientID

/-- The scope loop of `newIDToken` (oauth2.go:93-116), folded over the scope
list in order; an untrusted cross-client peer aborts with an error. -/
def applyScopes (st : Storage) (clientID : String) (claims : Identity) :
    List String → IDTokenClaims → Except String IDTokenClaims
  | [], tok => .ok tok
  | scope :: rest, tok =>
    if scope == scopeEmail then
      applyScopes st clientID claims rest
        { tok with email := claims.email, emailVerified := some claims.emailVerified }
    else if scope == scopeGroups then
      applyScopes st clientID claims rest { tok with groups := claims.groups }
    else if scope == scopeProfile then
      applyScopes st clientID claims rest { tok with name := claims.username }
    else
      match parseCrossClientScope scope with
      | none => applyScopes st clientID claims rest tok
      | some peerID =>
        if validateCrossClientTrust st clientID peerID then
          applyScopes st clientID claims rest { tok with aud := tok.aud ++ [peerID] }
        else
          .error ("peer (" ++ peerID ++ ") does not trust client")

/-- Model of `newIDToken` (oauth2.go:86): base claims, the scope loop, then the
audience rule. The version in src returns the claims without `exp`/`iat`. -/
def newIDToken (st : Storage) (issuer clientID : String) (claims : Identity)
    (scopes : List String) (nonce : String) : Except String IDTokenClaims :=
  match applyScopes st clientID claims scopes
      { iss := issuer, sub := claims.userID, nonce := nonce } with
  | .error e => .error e
  | .ok tok =>
    if tok.aud = [] then .ok { tok with aud := [clientID] }
    else .ok { tok with azp := clientID }

/-- Modelled from the spec: the `Server.newIDToken` variant the handlers call
returns `(token, expiry, err)` with `exp`, `iat` "from current time and
configured lifetime"; that wrapper is absent from src (handlers.go:416 calls
it, oauth2.go:86 returns only `(string, error)`). It delegates to the
source-translated `newIDToken` and sets `exp = now + lifetime`, `iat = now`. -/
def serverNewIDToken (st : Storage) (issuer : String) (idTokensValidFor now : Int)
    (clientID : String) (claims : Identity) (scopes : List String) (nonce : String) :
    Except String (IDTokenClaims × Int) :=
  match newIDToken st issuer clientID claims scopes nonce with
  | .error e => .error e
  | .ok tok =>
    let expiry := now + idTokensValidFor
    .ok ({ tok with exp := expiry, iat := now }, expiry)

/-- Go `strings.TrimPrefix`. -/
def goTrim (s pre : String) : String :=
  if strHasPre pre s then strDrop s (strLen pre) else s

/-- ASCII digit test (`Char.isDigit`, kernel-computable form). -/
def isDigitCh (c : Char) : Bool := 48 ≤ c.toNat && c.toNat ≤ 57

/-- Go `strconv.Atoi`: optional single leading sign, then one or more ASCII
digits; anything else errors (64-bit overflow is not modelled). -/
def goAtoi (s : String) : Option Int :=
  let core : String → Option Nat := fun t =>
    if t.data.length = 0 then none
    else if t.data.all isDigitCh then
      some (t.data.foldl (fun acc c => acc * 10 + (c.toNat - 48)) 0)
    else none
  if strHasPre "-" s then (core (strDrop s 1)).map (fun n => -(n : Int))
  else if strHasPre "+" s then (core (strDrop s 1)).map (fun n => (n : Int))
  else (core s).map (fun n => (n : Int))

def oobRedirectURI : String := "urn:ietf:wg:oauth:2.0:oob"

/-- Model of `validateRedirectURI` (oauth2.go:254), translated exactly, including the
`https://localhost:` trim of an URI already known to start with
`http://localhost:` and the `n <= 0` port acceptance. -/
def validateRedirectURI (client : Client) (redirectURI : String) : Bool :=
  if !client.public then
    client.redirectURIs.contains redirectURI
  else if redirectURI == oobRedirectURI then true
  else if !(strHasPre "http://localhost:" redirectURI) then false
  else
    match goAtoi (goTrim redirectURI "https://localhost:") with
    | none => false
    | some n => decide (n ≤ 0)

/-! Token endpoint (src/server/handlers.go). -/

/-- Server configuration the handlers read: issuer URL and the configured ID
Token lifetime (nanoseconds). -/
structure ServerCfg where
  issuer : String := ""
  idTokensValidFor : Int := 0
  deriving Repr, DecidableEq, Inhabited

/-- The access-token JSON envelope (`writeAccessToken`, handlers.go:522).
`refreshToken = ""` models the `omitempty` field; `idToken` carries the claims
(signing abstracted). -/
structure TokenResponse where
  accessToken : String := ""
  tokenType : String := ""
  expiresIn : Int := 0
  refreshToken : String := ""
  idToken : IDTokenClaims := {}
  deriving Repr, DecidableEq, Inhabited

/-- Outcome of a token-endpoint handler: an OAuth2 error or a JSON envelope,
together with the storage as left behind. -/
inductive TokenResult where
  | err (e : OAuth2Err) (st : Storage)
  | ok (resp : TokenResponse) (st : Storage)
  deriving Repr, DecidableEq, Inhabited

/-- Storage component of a `TokenResult`. -/
def TokenResult.storageOf : TokenResult → Storage
  | .err _ st => st
  | .ok _ st => st

/-- Response component of a `TokenResult`, forgetting storage. -/
def TokenResult.responseOf : TokenResult → Except OAuth2Err TokenResponse
  | .err e _ => .error e
  | .ok r _ => .ok r

/-- Model of `writeAccessToken` (handlers.go:522): note `expires_in` is
`int(expiry.Sub(s.now()))`, the raw Go `time.Duration`, i.e. `expiry - now`
in nanoseconds. -/
def writeAccessToken (now : Int) (accessToken : String) (idToken : IDTokenClaims)
    (refreshToken : String) (expiry : Int) : TokenResponse :=
  { accessToken := accessToken
    tokenType := "bearer"
    expiresIn := expiry - now
    refreshToken := refreshToken
    idToken := idToken }

/-- The spec's words for the envelope field: `"expires_in": <seconds until ID
Token expiry>` — written for comparison with `writeAccessToken`. -/
def specExpiresInSeconds (now expiry : Int) : Int :=
  (expiry - now) / 1000000000

/-- Model of `handleAuthCode` (handlers.go:396): the authorization_code grant.
`freshRefreshToken` and `freshAccessToken` are the `storage.NewNonce()` draws.
Branches follow the source exactly: a code that is present but expired or owned
by another client falls into the `err != storage.ErrNotFound` arm
(`err == nil` there) and produces `server_error` / HTTP 500. -/
def handleAuthCode (cfg : ServerCfg) (now : Int) (st : Storage) (client : Client)
    (code redirectURI freshRefreshToken freshAccessToken : String) : TokenResult :=
  match getAuthCode st code with
  | none =>
    .err ⟨errInvalidRequest, "Invalid or expired code parameter.", 400⟩ st
  | some authCode =>
    if now > authCode.expiry ∨ authCode.clientID ≠ client.id then
      .err ⟨errServerError, "", 500⟩ st
    else if authCode.redirectURI ≠ redirectURI then
      .err ⟨errInvalidRequest, "redirect_uri did not match URI from initial request.", 400⟩ st
    else
      match serverNewIDToken st cfg.issuer cfg.idTokensValidFor now client.id
          authCode.identity authCode.scopes authCode.nonce with
      | .error _ => .err ⟨errServerError, "", 500⟩ st
      | .ok (idToken, expiry) =>
        match deleteAuthCode st code with
        | none => .err ⟨errServerError, "", 500⟩ st
        | some st1 =>
          if authCode.scopes.contains scopeOfflineAccess then
            let refresh : Refresh :=
              { refreshToken := freshRefreshToken
                clientID := authCode.clientID
                connectorID := authCode.connectorID
                scopes := authCode.scopes
                identity := authCode.identity
                nonce := authCode.nonce }
            .ok (writeAccessToken now freshAccessToken idToken refresh.refreshToken expiry)
              (createRefresh st1 refresh)
          else
            .ok (writeAccessToken now freshAccessToken idToken "" expiry) st1

/-- The straight-line tail of `handleRefreshToken` after the stored Refresh and
the effective scope list are in hand (handlers.go:501-519): build the ID Token
over `scopes`, delete the old token, re-create it with a fresh value. -/
def refreshTokenBody (cfg : ServerCfg) (now : Int) (st : Storage) (client : Client)
    (code : String) (refresh : Refresh) (scopes : List String)
    (freshRefreshToken freshAccessToken : String) : TokenResult :=
  match serverNewIDToken st cfg.issuer cfg.idTokensValidFor now client.id
      refresh.identity scopes refresh.nonce with
  | .error _ => .err ⟨errServerError, "", 500⟩ st
  | .ok (idToken, expiry) =>
    match deleteRefresh st code with
    | none => .err ⟨errServerError, "", 500⟩ st
    | some st1 =>
      let newRefresh := { refresh with refreshToken := freshRefreshToken }
      .ok (writeAccessToken now freshAccessToken idToken newRefresh.refreshToken expiry)
        (createRefresh st1 newRefresh)

/-- Model of `handleRefreshToken` (handlers.go:458): the refresh_token grant.  The
requested scope string is split on single spaces (`strings.Split(scope, " ")`,
modelled by `goSplitSpace`);
a request whose scopes are not all members of the stored scopes is rejected
before any state change.  A present Refresh owned by another client falls into
the `err != storage.ErrNotFound` arm and produces `server_error` / 500. -/
def handleRefreshToken (cfg : ServerCfg) (now : Int) (st : Storage) (client : Client)
    (code scope freshRefreshToken freshAccessToken : String) : TokenResult :=
  if code = "" then
    .err ⟨errInvalidRequest, "No refresh token in request.", 400⟩ st
  else
    match getRefresh st code with
    | none =>
      .err ⟨errInvalidRequest,
        "Refresh token is invalid or has already been claimed by another client.", 400⟩ st
    | some refresh =>
      if refresh.clientID ≠ client.id then
        .err ⟨errServerError, "", 500⟩ st
      else if scope = "" then
        refreshTokenBody cfg now st client code refresh refresh.scopes
          freshRefreshToken freshAccessToken
      else if (goSplitSpace scope).all (fun s => refresh.scopes.contains s) then
        refreshTokenBody cfg now st client code refresh (goSplitSpace scope)
          freshRefreshToken freshAccessToken
      else
        .err ⟨errInvalidRequest, "Requested scopes did not contain authorized scopes.", 400⟩ st

/-! Approval endpoint: code issuance (src/server/handlers.go:303). -/

/-- Outcome of `sendCodeResponse`: error page, out-of-band code display, or a
303 redirect carrying `code` and `state`. -/
inductive ApprovalResult where
  | err (e : OAuth2Err) (st : Storage)
  | oob (codeID : String) (st : Storage)
  | redirect (uri codeID state : String) (st : Storage)
  deriving Repr, DecidableEq, Inhabited

def fiveMinutes : Int := 300 * 1000000000

/-- Model of `sendCodeResponse` (handlers.go:303), translated exactly: the first guard
is the source's `authReq.Expiry.After(s.now())`, i.e. it rejects as
"period has expired" precisely when the expiry is still in the future.  The
issued code copies the request's fields (the Go code dereferences
`authReq.Identity`, which the caller guarantees non-nil; absent is modelled by
the zero `Identity`) and expires five minutes from now.  `freshCodeID` is the
`storage.NewNonce()` draw. -/
def sendCodeResponse (now : Int) (st : Storage) (authReq : AuthRequest)
    (freshCodeID : String) : ApprovalResult :=
  if authReq.expiry > now then
    .err ⟨errInvalidRequest, "Authorization request period has expired.", 400⟩ st
  else
    match deleteAuthRequest st authReq.id with
    | none =>
      .err ⟨errInvalidRequest, "Authorization request has already been completed.", 400⟩ st
    | some st1 =>
      let code : AuthCode :=
        { id := freshCodeID
          clientID := authReq.clientID
          connectorID := authReq.connectorID
          nonce := authReq.nonce
          scopes := authReq.scopes
          identity := authReq.identity.getD {}
          expiry := now + fiveMinutes
          redirectURI := authReq.redirectURI }
      let st2 := createAuthCode st1 code
      if authReq.redirectURI = oobRedirectURI then .oob code.id st2
      else .redirect authReq.redirectURI code.id authReq.state st2

/-! Key manager decryption (src/storage/keys.go). -/

/-- Outcome of attempting one symmetric key on the ciphertext in hand:
`cryptopasta.Decrypt` succeeding and `json.Unmarshal` succeeding; the cipher
failing (wrong key / corrupt data); or the plaintext failing to deserialize.
The cryptographic primitive itself is abstracted into the oracle `d` below. -/
inductive DecOutcome (α : Type) where
  | success (v : α)
  | decryptFailed
  | deserializeFailed
  deriving Repr, DecidableEq

/-- Model of `storage.DecryptionKey` (part_002), with the key abstracted to an
identifier. -/
structure DecryptionKey where
  key : Nat
  expiry : Int
  deriving Repr, DecidableEq, Inhabited

/-- The symmetric-key half of `storage.Keys`; `encryptionKey = none` models the
nil current key.  (The signing-key fields play no part in `Decrypt`.) -/
structure Keys where
  encryptionKey : Option Nat := none
  decryptionKeys : List DecryptionKey := []
  deriving Repr, DecidableEq, Inhabited

/-- The package-level `decrypt` helper (keys.go:30): skip the key when
`!expiry.IsZero() && expiry.After(now())`; a cipher failure is swallowed
(`false, nil`); a deserialize failure is returned as an error.  `.ok none`
means "this key did not produce the value, keep going". -/
def decryptOne {α : Type} (d : Nat → DecOutcome α) (now : Int) (key : Nat)
    (expiry : Int) : Except String (Option α) :=
  if expiry ≠ 0 ∧ expiry > now then .ok none
  else
    match d key with
    | .success v => .ok (some v)
    | .decryptFailed => .ok none
    | .deserializeFailed => .error "deserialize"

/-- The loop over `k.DecryptionKeys` in `Keys.Decrypt` (keys.go:60). -/
def keysDecryptLoop {α : Type} (d : Nat → DecOutcome α) (now : Int) :
    List DecryptionKey → Except String α
  | [] => .error "no decryption keys found which can decrypt the secret"
  | k :: rest =>
    match decryptOne d now k.key k.expiry with
    | .error e => .error e
    | .ok (some v) => .ok v
    | .ok none => keysDecryptLoop d now rest

/-- Model of `Keys.Decrypt` (keys.go:47): try the current encryption key first (with the
zero expiry, so it is never skipped), then each decryption key in order.  The
base64 decoding of the input is elided: the oracle `d` speaks about the
already-decoded ciphertext in hand. -/
def keysDecrypt {α : Type} (d : Nat → DecOutcome α) (now : Int) (k : Keys) :
    Except String α :=
  match k.encryptionKey with
  | none => keysDecryptLoop d now k.decryptionKeys
  | some ek =>
    match decryptOne d now ek 0 with
    | .error e => .error e
    | .ok (some v) => .ok v
    | .ok none => keysDecryptLoop d now k.decryptionKeys

/-- Helper: `setRefreshExpiry st tok e` is `st` with the expiry of the Refresh stored
under `tok` replaced by `e`; used to state that the token endpoint never reads
a Refresh's expiry. -/
def setRefreshExpiry (st : Storage) (tok : String) (e : Int) : Storage :=
  { st with refreshes :=
      st.refreshes.map (fun r => if r.refreshToken == tok then { r with expiry := e } else r) }

/-! Concrete fixtures used by witnesses and counterexamples. -/

def exCfg : ServerCfg := { issuer := "https://poke.example.com", idTokensValidFor := 5000000000 }

def exClient : Client := { id := "c1", secret := "s1", redirectURIs := ["https://app/cb"] }

def exOtherClient : Client := { id := "c9", secret := "s9" }

def exPublicClient : Client := { id := "p1", public := true }

def exIdentity : Identity :=
  { userID := "u1", username := "alice", email := "a@x.io", emailVerified := true }

def exAuthCode : AuthCode :=
  { id := "code1", clientID := "c1", redirectURI := "https://app/cb"
    scopes := ["openid", "email"], identity := exIdentity, nonce := "n0", expiry := 10 }

def exStorage : Storage := { clients := [exClient], authCodes := [exAuthCode] }

def exStOut : Storage := { clients := [exClient] }

def exIDTok : IDTokenClaims :=
  { iss := "https://poke.example.com", sub := "u1", aud := ["c1"], exp := 5000000005
    iat := 5, nonce := "n0", email := "a@x.io", emailVerified := some true }

def exResp : TokenResponse :=
  { accessToken := "fa1", tokenType := "bearer", expiresIn := 5000000000, refreshToken := ""
    idToken := exIDTok }

def exRespR : TokenResponse :=
  { accessToken := "fa2", tokenType := "bearer", expiresIn := 5000000000, refreshToken := "r2"
    idToken := exIDTok }

def exRefresh : Refresh :=
  { refreshToken := "r1", clientID := "c1"
    scopes := ["openid", "email", "profile", "offline_access"]
    identity := exIdentity, nonce := "n0" }

def exStR : Storage := { clients := [exClient], refreshes := [exRefresh] }

def exStROut : Storage :=
  { clients := [exClient], refreshes := [{ exRefresh with refreshToken := "r2" }] }

def exPeer2 : Client := { id := "c2", trustedPeers := ["c1"] }

def exPeer3 : Client := { id := "c3", trustedPeers := ["c1"] }

def exStX : Storage := { clients := [exClient, exPeer2] }

def exStXY : Storage := { clients := [exClient, exPeer2, exPeer3] }

def exTokX : IDTokenClaims :=
  { iss := "iss", sub := "u1", aud := ["c2"], azp := "c1", nonce := "n"
    email := "", emailVerified := none }

def exTokXY : IDTokenClaims :=
  { iss := "iss", sub := "u1", aud := ["c2", "c3"], azp := "c1", nonce := "n" }

def exOracle : Nat → DecOutcome Nat :=
  fun k => if k = 7 then .success 42 else .decryptFailed

def exAuthReq : AuthRequest :=
  { id := "a1", clientID := "c1", scopes := ["openid"], redirectURI := "https://app/cb"
    state := "xyz", identity := some exIdentity, connectorID := "mock", expiry := 100 }

def exStA : Storage := { clients := [exClient], authRequests := [exAuthReq] }

def exStAExp : Storage :=
  { clients := [exClient], authRequests := [{ exAuthReq with expiry := -100 }] }

def exAuthCodeOff : AuthCode :=
  { exAuthCode with id := "code2", scopes := ["openid", "offline_access"] }

def exStorageOff : Storage := { clients := [exClient], authCodes := [exAuthCodeOff] }

def exCreatedRefresh : Refresh :=
  { refreshToken := "fr7", clientID := "c1", scopes := ["openid", "offline_access"]
    identity := exIdentity, nonce := "n0" }

def exIssuedCode : AuthCode :=
  { id := "newcode", clientID := "c1", connectorID := "mock", scopes := ["openid"]
    identity := exIdentity, expiry := 300000000000, redirectURI := "https://app/cb" }

/-! Shared storage lemmas. -/

theorem deleteAuthCode_refreshes {st st' : Storage} {id : String}
    (h : deleteAuthCode st id = some st') : st'.refreshes = st.refreshes := by
  unfold deleteAuthCode at h
  split at h
  · injection h with h'; subst h'; rfl
  · exact absurd h (by simp)

theorem deleteRefresh_mem {st st' : Storage} {tok : String}
    (h : deleteRefresh st tok = some st') :
    ∀ x ∈ st'.refreshes, x ∈ st.refreshes := by
  unfold deleteRefresh at h
  split at h
  · injection h with h'
    subst h'
    intro x hx
    exact (List.mem_filter.mp hx).1
  · exact absurd h (by simp)

theorem getAuthCode_deleteAuthCode {st st' : Storage} {id : String}
    (h : deleteAuthCode st id = some st') : getAuthCode st' id = none := by
  unfold deleteAuthCode at h
  split at h
  · injection h with h'
    subst h'
    unfold getAuthCode
    rw [List.find?_eq_none]
    intro x hx
    have hmem := List.mem_filter.mp hx
    simpa using hmem.2
  · exact absurd h (by simp)

theorem getRefresh_deleteRefresh {st st' : Storage} {tok : String}
    (h : deleteRefresh st tok = some st') : getRefresh st' tok = none := by
  unfold deleteRefresh at h
  split at h
  · injection h with h'
    subst h'
    unfold getRefresh
    rw [List.find?_eq_none]
    intro x hx
    have hmem := List.mem_filter.mp hx
    simpa using hmem.2
  · exact absurd h (by simp)

theorem getAuthCode_createRefresh (st : Storage) (r : Refresh) (id : String) :
    getAuthCode (createRefresh st r) id = getAuthCode st id := rfl

theorem getRefresh_createRefresh_ne {st : Storage} {r : Refresh} {tok : String}
    (h : r.refreshToken ≠ tok) :
    getRefresh (createRefresh st r) tok = getRefresh st tok := by
  unfold getRefresh createRefresh
  simp [List.find?_cons, h]

theorem getRefresh_createRefresh_self (st : Storage) (r : Refresh) :
    getRefresh (createRefresh st r) r.refreshToken = some r := by
  unfold getRefresh createRefresh
  simp [List.find?_cons]

/-! Claim theorems. -/

/-- Claim C1: for every stored AuthCode, at most one `POST /token` with
`grant_type=authorization_code` and its id can succeed — after a successful
exchange the code is gone from storage, and repeating the same request (at any
later time, with any fresh nonce draws) yields the OAuth2 error
`invalid_request` with HTTP status 400, leaving storage unchanged. -/
theorem auth_code_single_use
    (cfg : ServerCfg) (now now' : Int) (st : Storage) (client : Client)
    (code redirectURI fr fa fr' fa' : String) (resp : TokenResponse) (st' : Storage)
    (h : handleAuthCode cfg now st client code redirectURI fr fa = .ok resp st') :
    getAuthCode st' code = none ∧
    handleAuthCode cfg now' st' client code redirectURI fr' fa' =
      .err ⟨errInvalidRequest, "Invalid or expired code parameter.", 400⟩ st' := by
  have hnone : getAuthCode st' code = none := by
    unfold handleAuthCode at h
    split at h
    · exact absurd h (by simp)
    · split at h
      · exact absurd h (by simp)
      · split at h
        · exact absurd h (by simp)
        · split at h
          · exact absurd h (by simp)
          · rename_i heqDel
            split at h
            · exact absurd h (by simp)
            · rename_i st1 heq
              split at h
              · injection h with _ h2
                subst h2
                rw [getAuthCode_createRefresh]
                exact getAuthCode_deleteAuthCode heq
              · injection h with _ h2
                subst h2
                exact getAuthCode_deleteAuthCode heq
  refine ⟨hnone, ?_⟩
  unfold handleAuthCode
  rw [hnone]

/-- Claim C1 witness: a concrete successful exchange, after which the code is
gone and the replay of the very same request fails with `invalid_request`/400. -/
theorem auth_code_single_use_witness :
    getAuthCode exStOut "code1" = none ∧
    handleAuthCode exCfg 6 exStOut exClient "code1" "https://app/cb" "fr2" "fa2" =
      .err ⟨errInvalidRequest, "Invalid or expired code parameter.", 400⟩ exStOut :=
  auth_code_single_use exCfg 5 6 exStorage exClient "code1" "https://app/cb"
    "fr1" "fa1" "fr2" "fa2" exResp exStOut (by decide)

/-- Claim C2: the expiry guard of `sendCodeResponse` is inverted in the source
(`authReq.Expiry.After(s.now())`): a stored, identity-carrying AuthRequest
whose expiry is still 100ns in the future is rejected with `invalid_request`
"period has expired", while the same request already expired 100ns ago sails
through to code issuance. -/
theorem send_code_response_expiry_inverted :
    sendCodeResponse 0 exStA exAuthReq "newcode" =
      .err ⟨errInvalidRequest, "Authorization request period has expired.", 400⟩ exStA ∧
    sendCodeResponse 0 exStAExp { exAuthReq with expiry := -100 } "newcode" =
      .redirect "https://app/cb" "newcode" "xyz"
        { clients := [exClient], authCodes := [exIssuedCode] } := by
  decide

/-- Claim C4: at the authorization_code grant a *missing* code yields
`invalid_request`/400, but a code that is present yet expired, or present yet
owned by another client, takes the `err != storage.ErrNotFound` arm with
`err == nil` and yields `server_error`/500 — contradicting the claim that none
of the three cases returns 500. -/
theorem auth_code_error_code_leak :
    handleAuthCode exCfg 20 exStorage exClient "code1" "https://app/cb" "f1" "f2" =
      .err ⟨errServerError, "", 500⟩ exStorage ∧
    handleAuthCode exCfg 5 exStorage exOtherClient "code1" "https://app/cb" "f1" "f2" =
      .err ⟨errServerError, "", 500⟩ exStorage ∧
    handleAuthCode exCfg 5 exStorage exClient "missing" "https://app/cb" "f1" "f2" =
      .err ⟨errInvalidRequest, "Invalid or expired code parameter.", 400⟩ exStorage := by
  decide

/-- Claim C6: for a public client the source trims the scheme-mismatched
literal `https://localhost:` from an URI already checked to start with
`http://localhost:`, so `strconv.Atoi` always fails and every
`http://localhost:PORT` URI is rejected (and even a stripped port would be
accepted only when `<= 0`); only the OOB value passes.  Non-public clients
match their registered list literally. -/
theorem validate_redirect_uri_localhost_rejected :
    validateRedirectURI exPublicClient "http://localhost:8080" = false ∧
    validateRedirectURI exPublicClient "http://localhost:80" = false ∧
    validateRedirectURI exPublicClient oobRedirectURI = true ∧
    validateRedirectURI exClient "https://app/cb" = true ∧
    validateRedirectURI exClient "https://evil/cb" = false := by
  decide

/-- Claim C7: the skip guard of `decrypt` (keys.go:31) is inverted: a
historical decryption key is skipped when its expiry is non-zero and still in
the *future*, and is tried when its expiry has passed.  A single key that
decrypts the secret but expires 100ns from now is skipped and `Decrypt`
errors; the same key already 100ns expired is used and succeeds. -/
theorem keys_decrypt_skip_inverted :
    keysDecrypt exOracle 0 { decryptionKeys := [⟨7, 100⟩] } =
      .error "no decryption keys found which can decrypt the secret" ∧
    keysDecrypt exOracle 0 { decryptionKeys := [⟨7, -100⟩] } = .ok 42 := by
  decide

/-- Claim C9: `writeAccessToken` sets `expires_in` to `int(expiry.Sub(s.now()))`,
the raw Go `time.Duration`, i.e. nanoseconds.  For a successful exchange whose
ID Token expires 5 seconds after `now`, the envelope carries 5000000000 where
the spec's "seconds until ID Token expiry" is 5. -/
theorem expires_in_is_nanoseconds :
    handleAuthCode exCfg 5 exStorage exClient "code1" "https://app/cb" "fr1" "fa1" =
      .ok exResp exStOut ∧
    exResp.expiresIn = 5000000000 ∧
    specExpiresInSeconds 5 exResp.idToken.exp = 5 ∧
    exResp.expiresIn ≠ specExpiresInSeconds 5 exResp.idToken.exp := by
  decide

/-- A successful pass through the rotation tail of `handleRefreshToken`
removes the submitted token and stores the fetched record under the fresh
token, which is also the one written into the envelope. -/
theorem refreshTokenBody_ok {cfg : ServerCfg} {now : Int} {st : Storage} {client : Client}
    {code : String} {r : Refresh} {scopes : List String} {fr fa : String}
    {resp : TokenResponse} {st' : Storage}
    (hfresh : fr ≠ code)
    (h : refreshTokenBody cfg now st client code r scopes fr fa = .ok resp st') :
    getRefresh st' code = none ∧ resp.refreshToken = fr ∧
    getRefresh st' fr = some { r with refreshToken := fr } := by
  unfold refreshTokenBody at h
  split at h
  · exact absurd h (by simp)
  · split at h
    · exact absurd h (by simp)
    · rename_i st1 heq
      injection h with h1 h2
      subst h1; subst h2
      refine ⟨?_, rfl, ?_⟩
      · rw [getRefresh_createRefresh_ne hfresh]
        exact getRefresh_deleteRefresh heq
      · exact getRefresh_createRefresh_self st1 { r with refreshToken := fr }

/-- Claim C3: a successful refresh_token grant deletes the old token (a later
`GetRefresh` of it is NotFound, so replaying it fails with `invalid_request`)
and creates a replacement record under the freshly drawn token, which is the
one returned in the response.  Freshness of the draw (`NewNonce`) is the
hypothesis `hfresh`. -/
theorem refresh_token_rotation
    (cfg : ServerCfg) (now now' : Int) (st : Storage) (client : Client)
    (code scope scope' fr fa fr' fa' : String) (r : Refresh)
    (resp : TokenResponse) (st' : Storage)
    (hr : getRefresh st code = some r)
    (hfresh : fr ≠ code)
    (h : handleRefreshToken cfg now st client code scope fr fa = .ok resp st') :
    getRefresh st' code = none ∧
    resp.refreshToken = fr ∧
    getRefresh st' fr = some { r with refreshToken := fr } ∧
    handleRefreshToken cfg now' st' client code scope' fr' fa' =
      .err ⟨errInvalidRequest,
        "Refresh token is invalid or has already been claimed by another client.", 400⟩ st' := by
  unfold handleRefreshToken at h
  split at h
  · exact absurd h (by simp)
  · rename_i hcode
    split at h
    · exact absurd h (by simp)
    · rename_i refresh heq
      have hrr : refresh = r := by
        rw [hr] at heq
        injection heq with heq'
        exact heq'.symm
      subst hrr
      split at h
      · exact absurd h (by simp)
      · have main : getRefresh st' code = none ∧ resp.refreshToken = fr ∧
            getRefresh st' fr = some { refresh with refreshToken := fr } := by
          split at h
          · exact refreshTokenBody_ok hfresh h
          · split at h
            · exact refreshTokenBody_ok hfresh h
            · exact absurd h (by simp)
        refine ⟨main.1, main.2.1, main.2.2, ?_⟩
        unfold handleRefreshToken
        rw [if_neg hcode, main.1]

/-- Claim C3 witness: a concrete rotation — `r1` is exchanged, the reply
carries fresh token `r2`, `r1` is gone and replaying it fails. -/
theorem refresh_token_rotation_witness :
    getRefresh exStROut "r1" = none ∧
    exRespR.refreshToken = "r2" ∧
    getRefresh exStROut "r2" = some { exRefresh with refreshToken := "r2" } ∧
    handleRefreshToken exCfg 9 exStROut exClient "r1" "" "r3" "fa3" =
      .err ⟨errInvalidRequest,
        "Refresh token is invalid or has already been claimed by another client.", 400⟩ exStROut :=
  refresh_token_rotation exCfg 5 9 exStR exClient "r1" "openid email" "" "r2" "fa2"
    "r3" "fa3" exRefresh exRespR exStROut (by decide) (by decide) (by decide)

/-- The scope loop of `newIDToken` appends to `aud` exactly the peer ids of
the cross-client scopes, in order, and never touches `azp`. -/
theorem applyScopes_ok_aud (st : Storage) (clientID : String) (claims : Identity) :
    ∀ (scopes : List String) (tok tok' : IDTokenClaims),
      applyScopes st clientID claims scopes tok = .ok tok' →
      tok'.aud = tok.aud ++ scopes.filterMap parseCrossClientScope ∧ tok'.azp = tok.azp
  | [], tok, tok', h => by
    unfold applyScopes at h
    injection h with h'
    subst h'
    simp
  | scope :: rest, tok, tok', h => by
    unfold applyScopes at h
    rw [List.filterMap_cons]
    split at h
    · rename_i hsc
      have hnone : parseCrossClientScope scope = none := by
        rw [eq_of_beq hsc]; rfl
      rw [hnone]
      exact applyScopes_ok_aud st clientID claims rest
        { tok with email := claims.email, emailVerified := some claims.emailVerified } tok' h
    · split at h
      · rename_i hsc
        have hnone : parseCrossClientScope scope = none := by
          rw [eq_of_beq hsc]; rfl
        rw [hnone]
        exact applyScopes_ok_aud st clientID claims rest
          { tok with groups := claims.groups } tok' h
      · split at h
        · rename_i hsc
          have hnone : parseCrossClientScope scope = none := by
            rw [eq_of_beq hsc]; rfl
          rw [hnone]
          exact applyScopes_ok_aud st clientID claims rest
            { tok with name := claims.username } tok' h
        · split at h
          · rename_i hnone
            rw [hnone]
            exact applyScopes_ok_aud st clientID claims rest tok tok' h
          · rename_i peerID hsome
            rw [hsome]
            split at h
            · have ih := applyScopes_ok_aud st clientID claims rest _ tok' h
              refine ⟨?_, ih.2⟩
              rw [ih.1]
              simp
            · exact absurd h (by simp)

/-- Claim C5 counterexample: with exactly one trusted cross-client peer
(`c2.trustedPeers = ["c1"]`, `c1` requesting
`oauth2:server:client_id:c2`), the built ID Token has `aud = ["c2"]` and
`azp = "c1"`, but `audience.MarshalJSON` serializes the one-element audience
as the bare JSON string `"c2"`, not as the JSON array `["c2"]` the claim
requires "even when there is only one peer". -/
theorem single_peer_aud_serializes_as_string :
    newIDToken exStX "iss" "c1" exIdentity ["openid", "oauth2:server:client_id:c2"] "n" =
      .ok exTokX ∧
    exTokX.aud = ["c2"] ∧ exTokX.azp = "c1" ∧
    audienceMarshalJSON exTokX.aud = .str "c2" ∧
    audienceMarshalJSON exTokX.aud ≠ .arr ["c2"] := by
  decide

/-- Claim C5 amended: if no cross-client scope is present, `aud` is the
requesting client alone and serializes as the single JSON string of its id,
with `azp` absent; if cross-client scopes are present (all peers trusting the
client, or the build fails), `aud` is exactly the peer list and `azp` is the
requesting client — and `aud` serializes as a JSON array only when there are
at least two peers, a single peer serializing as the bare JSON string of that
peer. -/
theorem id_token_audience_rule
    (st : Storage) (issuer clientID : String) (claims : Identity)
    (scopes : List String) (nonce : String) (tok : IDTokenClaims)
    (h : newIDToken st issuer clientID claims scopes nonce = .ok tok) :
    (scopes.filterMap parseCrossClientScope = [] →
      tok.aud = [clientID] ∧ tok.azp = "" ∧
      audienceMarshalJSON tok.aud = .str clientID) ∧
    (∀ p ps, scopes.filterMap parseCrossClientScope = p :: ps →
      tok.aud = p :: ps ∧ tok.azp = clientID ∧
      (ps = [] → audienceMarshalJSON tok.aud = .str p) ∧
      (ps ≠ [] → audienceMarshalJSON tok.aud = .arr (p :: ps))) := by
  unfold newIDToken at h
  split at h
  · exact absurd h (by simp)
  · rename_i tok0 happ
    have haud := applyScopes_ok_aud st clientID claims scopes
      { iss := issuer, sub := claims.userID, nonce := nonce } tok0 happ
    have haud1 : tok0.aud = scopes.filterMap parseCrossClientScope := by
      rw [haud.1]; rfl
    have hazp : tok0.azp = "" := haud.2
    split at h
    · rename_i hempty
      injection h with h'
      subst h'
      constructor
      · intro _
        exact ⟨rfl, hazp, rfl⟩
      · intro p ps hps
        rw [← haud1, hempty] at hps
        exact absurd hps (by simp)
    · rename_i hne
      injection h with h'
      subst h'
      constructor
      · intro hps
        rw [hps] at haud1
        exact absurd haud1 hne
      · intro p ps hps
        rw [← haud1] at hps
        refine ⟨hps, rfl, ?_, ?_⟩
        · intro hnil
          subst hnil
          rw [show ({ tok0 with azp := clientID } : IDTokenClaims).aud = tok0.aud from rfl, hps]
          rfl
        · intro hcons
          rw [show ({ tok0 with azp := clientID } : IDTokenClaims).aud = tok0.aud from rfl, hps]
          cases ps with
          | nil => exact absurd rfl hcons
          | cons q qs => rfl

/-- Claim C5 witness: with two trusted peers the audience rule yields
`aud = ["c2", "c3"]`, `azp = "c1"`, serialized as a JSON array. -/
theorem id_token_audience_rule_witness :
    exTokXY.aud = ["c2", "c3"] ∧ exTokXY.azp = "c1" ∧
    (["c3"] = ([] : List String) → audienceMarshalJSON exTokXY.aud = .str "c2") ∧
    (["c3"] ≠ ([] : List String) → audienceMarshalJSON exTokXY.aud = .arr ["c2", "c3"]) :=
  (id_token_audience_rule exStXY "iss" "c1" exIdentity
      ["openid", "oauth2:server:client_id:c2", "oauth2:server:client_id:c3"] "n" exTokXY
      (by decide)).2 "c2" ["c3"] (by decide)

/-- Claim C8: on a refresh_token grant with a non-empty `scope` parameter, a
success is only possible when every space-separated requested scope is a
member of the stored Refresh's scopes, and the ID Token of the response is
then built over the requested (possibly narrower) scope list; any requested
scope outside the stored set yields `invalid_request`/400 with storage
unchanged. -/
theorem refresh_scope_narrowing
    (cfg : ServerCfg) (now : Int) (st : Storage) (client : Client)
    (code scope fr fa : String) (r : Refresh)
    (hr : getRefresh st code = some r)
    (hcode : code ≠ "")
    (hscope : scope ≠ "") :
    (∀ resp st', handleRefreshToken cfg now st client code scope fr fa = .ok resp st' →
      (goSplitSpace scope).all (fun s => r.scopes.contains s) = true ∧
      ∃ expiry, serverNewIDToken st cfg.issuer cfg.idTokensValidFor now client.id
          r.identity (goSplitSpace scope) r.nonce = .ok (resp.idToken, expiry)) ∧
    ((goSplitSpace scope).all (fun s => r.scopes.contains s) = false →
      r.clientID = client.id →
      handleRefreshToken cfg now st client code scope fr fa =
        .err ⟨errInvalidRequest, "Requested scopes did not contain authorized scopes.", 400⟩ st) := by
  constructor
  · intro resp st' h
    unfold handleRefreshToken at h
    split at h
    · exact absurd h (by simp)
    · split at h
      · exact absurd h (by simp)
      · rename_i refresh heq
        have hrr : refresh = r := by
          rw [hr] at heq
          injection heq with heq'
          exact heq'.symm
        subst hrr
        split at h
        · exact absurd h (by simp)
        · by_cases hall : ((goSplitSpace scope).all fun s => refresh.scopes.contains s) = true
          · rw [if_pos hall] at h
            refine ⟨hall, ?_⟩
            unfold refreshTokenBody at h
            split at h
            · exact absurd h (by simp)
            · rename_i idTok ex heqTok
              split at h
              · exact absurd h (by simp)
              · injection h with h1 _
                subst h1
                exact ⟨ex, heqTok⟩
          · rw [if_neg hall] at h
            exact absurd h (by simp)
  · intro hsub hcid
    unfold handleRefreshToken
    split
    · rename_i hc
      exact absurd hc hcode
    · split
      · rename_i hnone
        rw [hr] at hnone
        exact absurd hnone (by simp)
      · rename_i refresh heq
        have hrr : refresh = r := by
          rw [hr] at heq
          injection heq with heq'
          exact heq'.symm
        subst hrr
        have hnall : ¬ ((goSplitSpace scope).all fun s => refresh.scopes.contains s) = true := by
          rw [hsub]
          decide
        rw [if_neg (not_not_intro hcid), if_neg hnall]

/-- Claim C8 witness: narrowing `openid email` out of the stored four scopes
succeeds with the ID Token built over the narrowed list, while requesting the
foreign scope `pets` is rejected with `invalid_request` and no state change. -/
theorem refresh_scope_narrowing_witness :
    ((goSplitSpace "openid email").all (fun s => exRefresh.scopes.contains s) = true ∧
      ∃ expiry, serverNewIDToken exStR exCfg.issuer exCfg.idTokensValidFor 5 exClient.id
          exRefresh.identity (goSplitSpace "openid email") exRefresh.nonce =
        .ok (exRespR.idToken, expiry)) ∧
    handleRefreshToken exCfg 5 exStR exClient "r1" "openid pets" "r2" "fa2" =
      .err ⟨errInvalidRequest, "Requested scopes did not contain authorized scopes.", 400⟩ exStR :=
  ⟨(refresh_scope_narrowing exCfg 5 exStR exClient "r1" "openid email" "r2" "fa2" exRefresh
      (by decide) (by decide) (by decide)).1 exRespR exStROut (by decide),
   (refresh_scope_narrowing exCfg 5 exStR exClient "r1" "openid pets" "r2" "fa2" exRefresh
      (by decide) (by decide) (by decide)).2 (by decide) rfl⟩

/-- Lemma: `validateCrossClientTrust` reads storage only through `getClient`. -/
theorem validateCrossClientTrust_clients_congr {st1 st2 : Storage}
    (hc : st1.clients = st2.clients) (clientID peerID : String) :
    validateCrossClientTrust st1 clientID peerID =
      validateCrossClientTrust st2 clientID peerID := by
  unfold validateCrossClientTrust getClient
  rw [hc]

/-- The scope loop reads storage only through `getClient`. -/
theorem applyScopes_clients_congr {st1 st2 : Storage}
    (hc : st1.clients = st2.clients) (clientID : String) (claims : Identity) :
    ∀ (scopes : List String) (tok : IDTokenClaims),
      applyScopes st1 clientID claims scopes tok =
        applyScopes st2 clientID claims scopes tok
  | [], _ => rfl
  | scope :: rest, tok => by
    unfold applyScopes
    by_cases h1 : (scope == scopeEmail) = true
    · rw [if_pos h1, if_pos h1]
      exact applyScopes_clients_congr hc clientID claims rest _
    · rw [if_neg h1, if_neg h1]
      by_cases h2 : (scope == scopeGroups) = true
      · rw [if_pos h2, if_pos h2]
        exact applyScopes_clients_congr hc clientID claims rest _
      · rw [if_neg h2, if_neg h2]
        by_cases h3 : (scope == scopeProfile) = true
        · rw [if_pos h3, if_pos h3]
          exact applyScopes_clients_congr hc clientID claims rest _
        · rw [if_neg h3, if_neg h3]
          cases hp : parseCrossClientScope scope with
          | none =>
            exact applyScopes_clients_congr hc clientID claims rest tok
          | some peerID =>
            dsimp only
            rw [validateCrossClientTrust_clients_congr hc clientID peerID]
            by_cases h4 : validateCrossClientTrust st2 clientID peerID = true
            · rw [if_pos h4, if_pos h4]
              exact applyScopes_clients_congr hc clientID claims rest _
            · rw [if_neg h4, if_neg h4]

/-- Lemma: `newIDToken` reads storage only through `getClient`. -/
theorem newIDToken_clients_congr {st1 st2 : Storage}
    (hc : st1.clients = st2.clients) (issuer clientID : String) (claims : Identity)
    (scopes : List String) (nonce : String) :
    newIDToken st1 issuer clientID claims scopes nonce =
      newIDToken st2 issuer clientID claims scopes nonce := by
  unfold newIDToken
  rw [applyScopes_clients_congr hc clientID claims scopes]

/-- Lemma: `serverNewIDToken` reads storage only through `getClient`. -/
theorem serverNewIDToken_clients_congr {st1 st2 : Storage}
    (hc : st1.clients = st2.clients) (issuer : String) (validFor now : Int)
    (clientID : String) (claims : Identity) (scopes : List String) (nonce : String) :
    serverNewIDToken st1 issuer validFor now clientID claims scopes nonce =
      serverNewIDToken st2 issuer validFor now clientID claims scopes nonce := by
  unfold serverNewIDToken
  rw [newIDToken_clients_congr hc issuer clientID claims scopes nonce]

theorem getRefresh_mem {st : Storage} {tok : String} {r : Refresh}
    (h : getRefresh st tok = some r) : r ∈ st.refreshes :=
  List.mem_of_find?_eq_some h

theorem find?_map_expiry (tok : String) (e : Int) : ∀ (l : List Refresh),
    (l.map (fun r => if r.refreshToken == tok then { r with expiry := e } else r)).find?
        (fun r => r.refreshToken == tok) =
      (l.find? (fun r => r.refreshToken == tok)).map (fun r => { r with expiry := e })
  | [] => rfl
  | r :: rest => by
    by_cases hp : (r.refreshToken == tok) = true
    · have hhead : (if (r.refreshToken == tok) = true then ({ r with expiry := e } : Refresh)
          else r) = ({ r with expiry := e } : Refresh) := if_pos hp
      rw [List.map_cons, hhead, List.find?_cons, List.find?_cons]
      dsimp only
      rw [hp]
      rfl
    · have hhead : (if (r.refreshToken == tok) = true then ({ r with expiry := e } : Refresh)
          else r) = r := if_neg hp
      rw [List.map_cons, hhead, List.find?_cons, List.find?_cons]
      rw [eq_false_of_ne_true hp]
      exact find?_map_expiry tok e rest

theorem getRefresh_setRefreshExpiry (st : Storage) (tok : String) (e : Int) :
    getRefresh (setRefreshExpiry st tok e) tok =
      (getRefresh st tok).map (fun r => { r with expiry := e }) :=
  find?_map_expiry tok e st.refreshes

/-- The response half of the rotation tail depends on the storage only through
its clients (for the ID Token) and on the *presence* of the submitted token
(for the delete), never on the stored record's expiry. -/
theorem refreshTokenBody_responseOf_congr
    (cfg : ServerCfg) (now : Int) {st1 st2 : Storage} (client : Client) (code : String)
    {r1 r2 : Refresh} (scopes : List String) (fr fa : String)
    (hc : st1.clients = st2.clients)
    (hid : r1.identity = r2.identity) (hn : r1.nonce = r2.nonce)
    (h1 : (getRefresh st1 code).isSome = true) (h2 : (getRefresh st2 code).isSome = true) :
    (refreshTokenBody cfg now st1 client code r1 scopes fr fa).responseOf =
      (refreshTokenBody cfg now st2 client code r2 scopes fr fa).responseOf := by
  unfold refreshTokenBody
  rw [serverNewIDToken_clients_congr hc, hid, hn]
  cases htok : serverNewIDToken st2 cfg.issuer cfg.idTokensValidFor now client.id
      r2.identity scopes r2.nonce with
  | error msg => rfl
  | ok pr =>
    obtain ⟨idTok, ex⟩ := pr
    have hd1 : deleteRefresh st1 code =
        some { st1 with refreshes := st1.refreshes.filter (fun r => r.refreshToken != code) } := by
      unfold deleteRefresh
      rw [if_pos h1]
    have hd2 : deleteRefresh st2 code =
        some { st2 with refreshes := st2.refreshes.filter (fun r => r.refreshToken != code) } := by
      unfold deleteRefresh
      rw [if_pos h2]
    rw [hd1, hd2]
    rfl

/-- The rotation tail preserves the all-zero-expiry invariant of the refresh
store: the replacement record copies the fetched record's expiry. -/
theorem refreshTokenBody_refreshes_inv {cfg : ServerCfg} {now : Int} {st : Storage}
    {client : Client} {code : String} {refresh : Refresh} {scopes : List String}
    {fr fa : String}
    (hinv : ∀ r0, r0 ∈ st.refreshes → r0.expiry = 0)
    (hre : refresh ∈ st.refreshes) :
    ∀ r2, r2 ∈ (refreshTokenBody cfg now st client code refresh scopes fr fa).storageOf.refreshes →
      r2.expiry = 0 := by
  intro r2 hmem
  unfold refreshTokenBody at hmem
  split at hmem
  · exact hinv r2 hmem
  · split at hmem
    · exact hinv r2 hmem
    · rename_i st1 heq
      have hmem2 : r2 ∈ ({ refresh with refreshToken := fr } :: st1.refreshes) := hmem
      rcases List.mem_cons.mp hmem2 with h | h
      · rw [h]
        exact hinv refresh hre
      · exact hinv r2 (deleteRefresh_mem heq r2 h)

/-- Claim C10: every Refresh the token endpoint creates has the zero expiry —
the authorization_code grant's composite literal omits `Expiry` (zero value),
and rotation copies the fetched record, so an all-zero refresh store stays
all-zero — and the refresh handler's response never depends on the stored
record's expiry (no code path compares it to the clock), so an arbitrarily
old refresh token behaves identically. -/
theorem refresh_records_never_expire
    (cfg : ServerCfg) (now : Int) (st : Storage) (client : Client)
    (code redirectURI scope fr fa : String) (e : Int) :
    (∀ r2, r2 ∈ (handleAuthCode cfg now st client code redirectURI fr fa).storageOf.refreshes →
      r2 ∈ st.refreshes ∨ r2.expiry = 0) ∧
    ((∀ r0, r0 ∈ st.refreshes → r0.expiry = 0) →
      ∀ r2, r2 ∈ (handleRefreshToken cfg now st client code scope fr fa).storageOf.refreshes →
        r2.expiry = 0) ∧
    (handleRefreshToken cfg now (setRefreshExpiry st code e) client code scope fr fa).responseOf =
      (handleRefreshToken cfg now st client code scope fr fa).responseOf := by
  refine ⟨?_, ?_, ?_⟩
  · intro r2 hmem
    unfold handleAuthCode at hmem
    split at hmem
    · exact Or.inl hmem
    · rename_i authCode heqAc
      split at hmem
      · exact Or.inl hmem
      · split at hmem
        · exact Or.inl hmem
        · split at hmem
          · exact Or.inl hmem
          · split at hmem
            · exact Or.inl hmem
            · rename_i st1 heq
              split at hmem
              · rcases List.mem_cons.mp hmem with h | h
                · right
                  rw [h]
                · left
                  rw [deleteAuthCode_refreshes heq] at h
                  exact h
              · left
                have hm2 : r2 ∈ st1.refreshes := hmem
                rw [deleteAuthCode_refreshes heq] at hm2
                exact hm2
  · intro hinv r2 hmem
    unfold handleRefreshToken at hmem
    split at hmem
    · exact hinv r2 hmem
    · split at hmem
      · exact hinv r2 hmem
      · rename_i refresh heq
        split at hmem
        · exact hinv r2 hmem
        · split at hmem
          · exact refreshTokenBody_refreshes_inv hinv (getRefresh_mem heq) r2 hmem
          · split at hmem
            · exact refreshTokenBody_refreshes_inv hinv (getRefresh_mem heq) r2 hmem
            · exact hinv r2 hmem
  · by_cases hcode : code = ""
    · unfold handleRefreshToken
      rw [if_pos hcode, if_pos hcode]
      rfl
    · cases hg : getRefresh st code with
      | none =>
        have hg2 : getRefresh (setRefreshExpiry st code e) code = none := by
          rw [getRefresh_setRefreshExpiry, hg]
          rfl
        unfold handleRefreshToken
        rw [if_neg hcode, if_neg hcode, hg, hg2]
        rfl
      | some r =>
        have hg2 : getRefresh (setRefreshExpiry st code e) code = some { r with expiry := e } := by
          rw [getRefresh_setRefreshExpiry, hg]
          rfl
        have h1 : (getRefresh (setRefreshExpiry st code e) code).isSome = true := by
          rw [hg2]
          rfl
        have h2 : (getRefresh st code).isSome = true := by
          rw [hg]
          rfl
        unfold handleRefreshToken
        rw [if_neg hcode, if_neg hcode, hg, hg2]
        dsimp only
        by_cases hcid : r.clientID ≠ client.id
        · rw [if_pos hcid, if_pos hcid]
          rfl
        · rw [if_neg hcid, if_neg hcid]
          by_cases hsc : scope = ""
          · rw [if_pos hsc, if_pos hsc]
            exact refreshTokenBody_responseOf_congr cfg now client code r.scopes fr fa
              rfl rfl rfl h1 h2
          · rw [if_neg hsc, if_neg hsc]
            by_cases hall : ((goSplitSpace scope).all fun s => r.scopes.contains s) = true
            · rw [if_pos hall, if_pos hall]
              exact refreshTokenBody_responseOf_congr cfg now client code (goSplitSpace scope)
                fr fa rfl rfl rfl h1 h2
            · rw [if_neg hall, if_neg hall]
              rfl

/-- Claim C10 witness: the Refresh created by a concrete offline_access
exchange has zero expiry, the record left after a concrete rotation has zero
expiry, and setting the stored expiry to 777 before a refresh grant leaves the
response unchanged. -/
theorem refresh_records_never_expire_witness :
    (exCreatedRefresh ∈ exStorageOff.refreshes ∨ exCreatedRefresh.expiry = 0) ∧
    ({ exRefresh with refreshToken := "r2" } : Refresh).expiry = 0 ∧
    (handleRefreshToken exCfg 5 (setRefreshExpiry exStR "r1" 777) exClient
        "r1" "" "r2" "fa2").responseOf =
      (handleRefreshToken exCfg 5 exStR exClient "r1" "" "r2" "fa2").responseOf :=
  ⟨(refresh_records_never_expire exCfg 5 exStorageOff exClient "code2" "https://app/cb"
      "" "fr7" "fa7" 777).1 exCreatedRefresh (by decide),
   (refresh_records_never_expire exCfg 5 exStR exClient "r1" "" "" "r2" "fa2" 777).2.1
     (by
       intro r0 h0
       rw [List.mem_singleton.mp h0]
       rfl)
     { exRefresh with refreshToken := "r2" } (by decide),
   (refresh_records_never_expire exCfg 5 exStR exClient "r1" "" "" "r2" "fa2" 777).2.2⟩

end Poke
